import Mathlib

/-!
# Verification of the anvil/shuttle node engine (`src/anvil/src/eth/api.rs`)

A shallow embedding, in Lean 4, of the RPC handler layer of the local
development node.  Machine integers (`U256`, `u64`) are modelled as `Nat`:
the embedded code paths use only comparison, truncated (saturating)
subtraction, floor division, addition and small multiplication, all of which
agree with `Nat` arithmetic on the values these paths can produce.
Fallible Rust code (`Result<T, BlockchainError>`) is modelled as
`Except`-valued functions; the EVM interpreter, which is an external
collaborator, is abstracted as an oracle `Nat → CallResult` mapping the gas
limit of a fixed request to the interpreter outcome.
-/

namespace Anvil

/-- Account address (the payload is irrelevant to the verified logic). -/
abbrev Address := Nat

/-- A pool dependency marker: a `(sender, nonce)` pair.
Modelled from the spec: `to_marker` lives in `pool/transactions.rs`, which is
not part of the sources; the spec defines `Marker = (sender, nonce) pair`. -/
abbrev TxMarker := Address × Nat

/-- Modelled from the spec: `Marker = (sender, nonce)` pair built by
`to_marker(nonce, from)`. -/
def to_marker (nonce : Nat) (fromAddr : Address) : TxMarker := (fromAddr, nonce)

/-- Errors surfaced by the embedded handlers
(`anvil/src/eth/error.rs::BlockchainError`, collapsed to the variants the
embedded code distinguishes). -/
inductive BlockchainError where
  | RpcUnimplemented
  | NoSignerAvailable
  deriving DecidableEq, Repr

/- ## Fork delegation (`predates_fork` dispatch in every read handler) -/

/-- Modelled from the spec: `ClientFork::predates_fork(n) ≡ n < pin`
(the `ClientFork` implementation is outside the provided sources). -/
def predates_fork (pin n : Nat) : Bool := n < pin

/-- Modelled from the spec: `ClientFork::predates_fork_inclusive(n) ≡ n ≤ pin`. -/
def predates_fork_inclusive (pin n : Nat) : Bool := n ≤ pin

/-- `BlockRequest` from `backend::mem`: either the pending block or a
resolved concrete block number. -/
inductive BlockRequest where
  | pending
  | number (n : Nat)
  deriving DecidableEq, Repr

/-- Which component answers a read query. -/
inductive DataSource where
  | fork
  | local
  deriving DecidableEq, Repr

/-- `EthApi::balance` (api.rs lines 481-495): delegate to the fork client
when the resolved block number predates the fork pin, otherwise answer from
the local backend. -/
def balance_source : Option Nat → BlockRequest → DataSource
  | some pin, .number n => if predates_fork pin n then .fork else .local
  | _, _ => .local

/-- `EthApi::storage_at` (api.rs lines 500-521): same dispatch as `balance`. -/
def storage_at_source : Option Nat → BlockRequest → DataSource
  | some pin, .number n => if predates_fork pin n then .fork else .local
  | _, _ => .local

/-- `EthApi::get_code` (api.rs lines 632-644): same dispatch as `balance`. -/
def get_code_source : Option Nat → BlockRequest → DataSource
  | some pin, .number n => if predates_fork pin n then .fork else .local
  | _, _ => .local

/-- `EthApi::do_estimate_gas` (api.rs lines 1712-1732): delegate the whole
estimation to the fork when the block predates the pin. -/
def estimate_gas_source : Option Nat → BlockRequest → DataSource
  | some pin, .number n => if predates_fork pin n then .fork else .local
  | _, _ => .local

/-- `EthApi::get_transaction_count` (api.rs lines 2031-2049): the nonce
query uses `predates_fork_inclusive`, i.e. it also delegates at the pin
itself. -/
def transaction_count_source : Option Nat → BlockRequest → DataSource
  | some pin, .number n => if predates_fork_inclusive pin n then .fork else .local
  | _, _ => .local

/-- `EthApi::get_proof` (api.rs lines 650-671): uses
`predates_fork_inclusive`. -/
def get_proof_source : Option Nat → BlockRequest → DataSource
  | some pin, .number n => if predates_fork_inclusive pin n then .fork else .local
  | _, _ => .local

/-- `EthApi::uncle_by_block_number_and_index` / `uncle_by_block_hash_and_index`
(api.rs lines 937-970): the block id is first resolved to a number, then the
query delegates when `predates_fork_inclusive` holds; outside fork mode the
answer is always the local `None`. -/
def uncle_source : Option Nat → Nat → DataSource
  | some pin, n => if predates_fork_inclusive pin n then .fork else .local
  | none, _ => .local

/-- Outcome of the `eth_call` handler's dispatch (api.rs lines 830-859). -/
inductive CallAction where
  | stateOverrideError
  | forkDelegate
  | localCall
  deriving DecidableEq, Repr

/-- `EthApi::call` (api.rs lines 830-859): on a pre-fork block the handler
refuses a state-override set with `StateOverrideError` and otherwise
delegates; on any other block it executes locally. -/
def call_handler (fork : Option Nat) (blockReq : BlockRequest)
    (hasOverrides : Bool) : CallAction :=
  match blockReq, fork with
  | .number n, some pin =>
    if predates_fork pin n then
      if hasOverrides then .stateOverrideError else .forkDelegate
    else .localCall
  | _, _ => .localCall

/- ## Pool markers (`required_marker`, api.rs lines 2099-2109) -/

/-- `required_marker` (api.rs lines 2099-2109). -/
def required_marker (provided_nonce on_chain_nonce : Nat) (fromAddr : Address) :
    List TxMarker :=
  if provided_nonce = on_chain_nonce then []
  else
    let prev_nonce := provided_nonce - 1
    if on_chain_nonce ≤ prev_nonce then [to_marker prev_nonce fromAddr] else []

/-- Marker construction in `EthApi::send_transaction` (api.rs lines 766-767):
`requires = required_marker(nonce, on_chain_nonce, from)`,
`provides = vec![to_marker(nonce, from)]`. -/
def send_transaction_markers (nonce on_chain_nonce : Nat) (fromAddr : Address) :
    List TxMarker × List TxMarker :=
  (required_marker nonce on_chain_nonce fromAddr, [to_marker nonce fromAddr])

/-- Marker construction in `EthApi::send_raw_transaction`
(api.rs lines 812-817): identical to `send_transaction`. -/
def send_raw_transaction_markers (nonce on_chain_nonce : Nat)
    (fromAddr : Address) : List TxMarker × List TxMarker :=
  (required_marker nonce on_chain_nonce fromAddr, [to_marker nonce fromAddr])

/-- Marker construction in `EthApi::eth_send_unsigned_transaction`
(api.rs lines 1588-1589): identical to `send_transaction`. -/
def send_unsigned_transaction_markers (nonce on_chain_nonce : Nat)
    (fromAddr : Address) : List TxMarker × List TxMarker :=
  (required_marker nonce on_chain_nonce fromAddr, [to_marker nonce fromAddr])

/-- Modelled from the spec: `Backend::validate_pool_transaction` is outside
the provided sources; per §7 of the spec, pre-validation checks the
transaction nonce against the on-chain nonce before pool insertion and
rejects a nonce that is too low. -/
def validate_pool_transaction_nonce (nonce on_chain_nonce : Nat) : Bool :=
  on_chain_nonce ≤ nonce

/- ## Time control (`evm_setTime`, api.rs lines 1416-1424) -/

/-- `EthApi::evm_set_time` (api.rs lines 1416-1424): resets the clock to
`timestamp` and returns `Duration::from_millis(timestamp.saturating_sub(now)).as_secs()`.
The clock itself (`TimeManager`, outside the sources) is modelled as the
plain `Nat` it is reset to; the handler returns `Ok` unconditionally, which
the `Except` result records. -/
def evm_set_time (now timestamp : Nat) : Nat × Except BlockchainError Nat :=
  let offset := timestamp - now
  (timestamp, .ok (offset / 1000))

/- ## Mining mode (`evm_setIntervalMining`, api.rs lines 1212-1226) -/

/-- `MiningMode` from `anvil/src/eth/miner.rs` (outside the sources; the
constructors are those referenced from api.rs: `None`, the instant mode
installed by `evm_setAutomine`, and `FixedBlockTime`). -/
inductive MiningMode where
  | none
  | instant (delayMillis : Nat)
  | fixedBlockTime (secs : Nat)
  deriving DecidableEq, Repr

/-- `EthApi::anvil_set_interval_mining` (api.rs lines 1212-1226): interval 0
disables automatic mining, a positive interval installs fixed-block-time
mining; the handler returns `Ok(())` in both cases. -/
def anvil_set_interval_mining (secs : Nat) :
    MiningMode × Except BlockchainError Unit :=
  if secs = 0 then (MiningMode.none, .ok ())
  else (MiningMode.fixedBlockTime secs, .ok ())

/- ## evm_mine (api.rs lines 1458-1464 and 1685-1710) -/

/-- `EvmMineOptions` from `anvil_core::types` (outside the sources).
Modelled from the spec: accepts either `Timestamp(u64|null)` or
`Options { timestamp?, blocks? }`. -/
inductive EvmMineOptions where
  | timestamp (t : Option Nat)
  | options (timestamp : Option Nat) (blocks : Option Nat)
  deriving DecidableEq, Repr

/-- The node state visible to the mining handlers: the best block number,
the pending next-block timestamp override, and the timestamp override each
mined block consumed (in mining order). -/
structure NodeState where
  bestBlock : Nat
  nextTimestamp : Option Nat
  minedTimestamps : List (Option Nat)
  deriving DecidableEq, Repr

/-- Modelled from the spec (§4.6): `mine_one` commits one block with
`number = best + 1` whose timestamp consumes the pending next-block
timestamp override (the backend and time controller are outside the
sources). -/
def mine_one (s : NodeState) : NodeState :=
  { bestBlock := s.bestBlock + 1
    nextTimestamp := none
    minedTimestamps := s.minedTimestamps ++ [s.nextTimestamp] }

/-- The `for _ in 0..blocks_to_mine { self.mine_one() }` loop of
`do_evm_mine` (api.rs lines 1704-1707). -/
def mine_blocks (s : NodeState) : Nat → NodeState
  | 0 => s
  | n + 1 => mine_blocks (mine_one s) n

/-- `EthApi::evm_set_next_block_timestamp` (api.rs lines 1407-1410), with the
`TimeManager` state modelled inside `NodeState`. -/
def evm_set_next_block_timestamp (s : NodeState) (t : Nat) : NodeState :=
  { s with nextTimestamp := some t }

/-- `EthApi::do_evm_mine` (api.rs lines 1685-1710): parse the options into a
block count (default 1) and an optional timestamp, set the timestamp as the
next block timestamp before mining, mine the blocks, and return how many
were mined. -/
def do_evm_mine (s : NodeState) (opts : Option EvmMineOptions) :
    NodeState × Nat :=
  let parsed : Nat × Option Nat :=
    match opts with
    | none => (1, none)
    | some (.timestamp t) => (1, t)
    | some (.options t blocks) =>
      match blocks with
      | some b => (b, t)
      | none => (1, t)
  let s1 :=
    match parsed.2 with
    | some t => evm_set_next_block_timestamp s t
    | none => s
  (mine_blocks s1 parsed.1, parsed.1)

/-- `EthApi::evm_mine` (api.rs lines 1458-1464): run `do_evm_mine` and
return the string `"0x0"`. -/
def evm_mine (s : NodeState) (opts : Option EvmMineOptions) :
    NodeState × String :=
  ((do_evm_mine s opts).1, "0x0")

/- ## Unimplemented handlers and typed-data signing (api.rs lines 676-705, 983-1010) -/

/-- Placeholder for the `Work` answer of `eth_getWork`; the handler never
produces one. -/
abbrev Work := Unit

/-- `EthApi::work` (api.rs lines 983-986). -/
def work : Except BlockchainError Work := .error .RpcUnimplemented

/-- `EthApi::submit_work` (api.rs lines 999-1002). -/
def submit_work (_nonce _pow _digest : Nat) : Except BlockchainError Bool :=
  .error .RpcUnimplemented

/-- `EthApi::submit_hashrate` (api.rs lines 1007-1010). -/
def submit_hashrate (_rate _id : Nat) : Except BlockchainError Bool :=
  .error .RpcUnimplemented

/-- `EthApi::sign_typed_data` (api.rs lines 676-683), the v1 variant. -/
def sign_typed_data (_address : Address) (_data : Nat) :
    Except BlockchainError String :=
  .error .RpcUnimplemented

/-- `EthApi::sign_typed_data_v3` (api.rs lines 688-695). -/
def sign_typed_data_v3 (_address : Address) (_data : Nat) :
    Except BlockchainError String :=
  .error .RpcUnimplemented

/-- A signer, per the capability interface of spec §9 (the trait object
lives in `sign.rs`, outside the sources): the accounts it can sign for and
its typed-data signing function. -/
structure Signer where
  accounts : List Address
  signTypedDataImpl : Address → Nat → String

/-- `EthApi::get_signer` (api.rs lines 1940-1942): the first signer that can
sign for the address. -/
def get_signer (signers : List Signer) (address : Address) : Option Signer :=
  signers.find? (fun signer => signer.accounts.contains address)

/-- `EthApi::sign_typed_data_v4` (api.rs lines 700-705): look up a signer,
sign, and return `"0x" ++ signature`. -/
def sign_typed_data_v4 (signers : List Signer) (address : Address)
    (data : Nat) : Except BlockchainError String :=
  match get_signer signers address with
  | none => .error .NoSignerAvailable
  | some signer => .ok ("0x" ++ signer.signTypedDataImpl address data)

/- ## Gas estimation (`do_estimate_gas_with_state`, api.rs lines 1737-1917) -/

/-- `MIN_TRANSACTION_GAS` from `backend::mem` (outside the sources).
Modelled from the spec: the baseline transfer gas for a `Call`; the standard
intrinsic transfer cost. -/
def MIN_TRANSACTION_GAS : Nat := 21000

/-- `MIN_CREATE_GAS` from `backend::mem` (outside the sources).
Modelled from the spec: the baseline gas for a `Create` or unknown request. -/
def MIN_CREATE_GAS : Nat := 53000

/-- The `InstructionResult` classes the estimation code distinguishes:
the `return_ok!` family, `Revert` (the `return_revert!` family),
`OutOfEnergy`, `OutOfFund`, and every other exit code. -/
inductive InstructionResult where
  | ok
  | revert
  | outOfEnergy
  | outOfFund
  | other
  deriving DecidableEq, Repr

/-- Result of one `Backend::call_with_state` invocation for the fixed
request at a given gas limit: either the `(exit, out, gas_used)` triple, a
`GasTooHigh` pre-execution error, or any other `BlockchainError`. -/
inductive CallResult where
  | ok (exit : InstructionResult) (out : Option (List Nat)) (gasUsed : Nat)
  | errGasTooHigh
  | errOther
  deriving DecidableEq, Repr

/-- `exec g` produced a `return_ok!` exit. -/
def isSuccessAt (exec : Nat → CallResult) (g : Nat) : Prop :=
  ∃ out gasUsed, exec g = .ok .ok out gasUsed

instance (exec : Nat → CallResult) (g : Nat) : Decidable (isSuccessAt exec g) :=
  match h : exec g with
  | .ok .ok out gasUsed => .isTrue ⟨out, gasUsed, h⟩
  | .ok .revert _ _ => .isFalse (by simp [isSuccessAt, h])
  | .ok .outOfEnergy _ _ => .isFalse (by simp [isSuccessAt, h])
  | .ok .outOfFund _ _ => .isFalse (by simp [isSuccessAt, h])
  | .ok .other _ _ => .isFalse (by simp [isSuccessAt, h])
  | .errGasTooHigh => .isFalse (by simp [isSuccessAt, h])
  | .errOther => .isFalse (by simp [isSuccessAt, h])

/-- A monotone execution oracle, success side: every gas limit at or above
the threshold `T` executes to a `return_ok!` exit. -/
def succeedsFrom (exec : Nat → CallResult) (T : Nat) : Prop :=
  ∀ g, T ≤ g → ∃ out gasUsed, exec g = .ok .ok out gasUsed

/-- A monotone execution oracle, failure side: every gas limit below the
threshold `T` fails with `GasTooHigh`, a revert, out-of-gas or
out-of-funds. -/
def failsBelow (exec : Nat → CallResult) (T : Nat) : Prop :=
  ∀ g, g < T → exec g = .errGasTooHigh ∨
    ∃ out gasUsed, exec g = .ok .revert out gasUsed ∨
      exec g = .ok .outOfEnergy out gasUsed ∨
      exec g = .ok .outOfFund out gasUsed

/-- The errors `do_estimate_gas_with_state` can return
(`InvalidTransactionError` / `BlockchainError` variants, collapsed to what
the embedded paths distinguish). -/
inductive EstimateError where
  | insufficientFunds
  | basicOutOfGas (limit : Nat)
  | revert (output : Option (List Nat))
  | gasTooHigh
  | evmError
  | otherError
  deriving DecidableEq, Repr

/-- The slice of `EthTransactionRequest` the estimation reads. -/
structure EstimateRequest where
  fromAddr : Option Address
  toAddr : Option Address
  gas : Option Nat
  gasPrice : Option Nat
  value : Option Nat
  data : Option (List Nat)
  deriving DecidableEq, Repr

/-- The slice of backend state and block environment the estimation reads:
the code lookup (`get_code_with_state`), the balance lookup
(`get_balance_with_state`), the block gas limit (`block_env.energy_limit`)
and the backend gas limit used by `map_out_of_gas_err`. -/
structure EstimateEnv where
  codeAt : Address → Except Unit (List Nat)
  balanceOf : Address → Except Unit Nat
  blockEnergyLimit : Nat
  backendGasLimit : Nat

/-- `convert_transact_out` (api.rs lines 2111-2117): the optional output as
plain bytes, empty when absent. -/
def convert_transact_out (out : Option (List Nat)) : List Nat := out.getD []

/-- `determine_base_gas_by_kind` (api.rs lines 2167-2179):
`MIN_TRANSACTION_GAS` when the typed request is a `Call` (a `to` address is
present), `MIN_CREATE_GAS` for a `Create` or an unknown request.
(`EthTransactionRequest::into_typed_request` is outside the sources; per the
spec a legacy request is a `Call(to)` exactly when `to` is set.) -/
def determine_base_gas_by_kind (request : EstimateRequest) : Nat :=
  match request.toAddr with
  | some _ => MIN_TRANSACTION_GAS
  | none => MIN_CREATE_GAS

/-- The simple-transfer shortcut test of `do_estimate_gas_with_state`
(api.rs lines 1746-1757): the request carries no calldata and its `to`
account has (readably) empty code. -/
def is_simple_transfer (env : EstimateEnv) (request : EstimateRequest) : Bool :=
  ((request.data.map (fun d => d.isEmpty)).getD true) &&
    (match request.toAddr with
     | some t =>
       (match env.codeAt t with
        | .ok code => code.isEmpty
        | .error _ => false)
     | none => false)

/-- `map_out_of_gas_err` (api.rs lines 2132-2163): re-run the request at the
backend's gas limit; success means the original failure was gas related
(`BasicOutOfGas` at the original limit), a revert is reported with its
output, anything else is an EVM error (and a failing call returns its own
error). -/
def map_out_of_gas_err (env : EstimateEnv) (exec : Nat → CallResult)
    (gas_limit : Nat) : EstimateError :=
  match exec env.backendGasLimit with
  | .errGasTooHigh => .gasTooHigh
  | .errOther => .otherError
  | .ok exit out _ =>
    match exit with
    | .ok => .basicOutOfGas gas_limit
    | .revert => .revert (some (convert_transact_out out))
    | .outOfEnergy | .outOfFund | .other => .evmError

/-- The binary-search loop of `do_estimate_gas_with_state` (api.rs lines
1858-1912), with explicit fuel: `none` means the fuel ran out before the
loop terminated.  On `GasTooHigh` or a revert/out-of-gas/out-of-fund exit
the lower bound rises to `mid`; on success the upper bound drops to `mid`;
any other exit or error aborts; the loop stops when `high - low ≤ 1` and
returns `high`. -/
def estimate_gas_loop (exec : Nat → CallResult) :
    Nat → Nat → Nat → Nat → Option (Except EstimateError Nat)
  | _, _, _, 0 => none
  | low, high, mid, fuel + 1 =>
    if high - low ≤ 1 then some (.ok high)
    else
      match exec mid with
      | .errGasTooHigh => estimate_gas_loop exec mid high ((high + mid) / 2) fuel
      | .errOther => some (.error .otherError)
      | .ok exit _ _ =>
        match exit with
        | .ok => estimate_gas_loop exec low mid ((mid + low) / 2) fuel
        | .revert => estimate_gas_loop exec mid high ((high + mid) / 2) fuel
        | .outOfEnergy => estimate_gas_loop exec mid high ((high + mid) / 2) fuel
        | .outOfFund => estimate_gas_loop exec mid high ((high + mid) / 2) fuel
        | .other => some (.error .evmError)

/-- The sender-funds cap of `do_estimate_gas_with_state`
(api.rs lines 1761-1784): starting from the request gas (or the block gas
limit), cap the highest usable gas by what the sender can afford at the
effective gas price; an unaffordable `value` is `InsufficientFunds`. -/
def highest_gas_cap (env : EstimateEnv) (request : EstimateRequest) :
    Except EstimateError Nat :=
  let gas_price := request.gasPrice.getD 0
  let highest := request.gas.getD env.blockEnergyLimit
  match request.fromAddr with
  | none => .ok highest
  | some fromAddr =>
    if 0 < gas_price then
      match env.balanceOf fromAddr with
      | .error _ => .error .otherError
      | .ok funds =>
        match request.value with
        | some v =>
          if funds < v then .error .insufficientFunds
          else
            let allowance := (funds - v) / gas_price
            .ok (if allowance < highest then allowance else highest)
        | none =>
          let allowance := funds / gas_price
          .ok (if allowance < highest then allowance else highest)
    else .ok highest

/-- `do_estimate_gas_with_state` (api.rs lines 1737-1917): the
simple-transfer shortcut, the funds cap, the initial execution at the capped
limit with its `GasTooHigh` / out-of-gas / revert handling, and the binary
search between `determine_base_gas_by_kind` and the cap, whose first
midpoint is `min(gas_used * 3, (high + low) / 2)`. -/
def do_estimate_gas_with_state (env : EstimateEnv) (exec : Nat → CallResult)
    (request : EstimateRequest) (fuel : Nat) :
    Option (Except EstimateError Nat) :=
  if is_simple_transfer env request then some (.ok MIN_TRANSACTION_GAS)
  else
    match highest_gas_cap env request with
    | .error e => some (.error e)
    | .ok highest_gas_limit =>
      let gas_limit := min (request.gas.getD highest_gas_limit) highest_gas_limit
      match exec gas_limit with
      | .errGasTooHigh =>
        if request.gas.isSome || request.gasPrice.isSome then
          some (.error (map_out_of_gas_err env exec gas_limit))
        else some (.error .gasTooHigh)
      | .errOther => some (.error .otherError)
      | .ok exit out gasUsed =>
        match exit with
        | .ok =>
          let lowest_gas_limit := determine_base_gas_by_kind request
          let mid_gas_limit :=
            min (gasUsed * 3) ((highest_gas_limit + lowest_gas_limit) / 2)
          estimate_gas_loop exec lowest_gas_limit highest_gas_limit
            mid_gas_limit fuel
        | .outOfEnergy => some (.error (.basicOutOfGas gas_limit))
        | .outOfFund => some (.error (.basicOutOfGas gas_limit))
        | .revert =>
          if request.gas.isSome || request.gasPrice.isSome then
            some (.error (map_out_of_gas_err env exec gas_limit))
          else some (.error (.revert (some (convert_transact_out out))))
        | .other => some (.error .evmError)

/- ## Concrete instances used by witnesses and counterexamples -/

/-- A monotone oracle failing below the threshold: success exactly from gas
21003 on. -/
def thresholdExec : Nat → CallResult := fun g =>
  if 21003 ≤ g then .ok .ok none 21003 else .ok .revert none 0

/-- An oracle that succeeds at every gas limit (gas used 1000000). -/
def alwaysOkExec : Nat → CallResult := fun _ => .ok .ok none 1000000

/-- A block environment with gas limit 21004. -/
def smallEnv : EstimateEnv :=
  { codeAt := fun _ => .ok [0]
    balanceOf := fun _ => .ok 0
    blockEnergyLimit := 21004
    backendGasLimit := 21004 }

/-- A `Call` request with one byte of calldata and no explicit gas fields. -/
def plainCallRequest : EstimateRequest :=
  { fromAddr := none, toAddr := some 1, gas := none, gasPrice := none
    value := none, data := some [1] }

/-- An environment whose backend gas limit (50) differs from the block gas
limit (30). -/
def retryEnv : EstimateEnv :=
  { codeAt := fun _ => .ok [0]
    balanceOf := fun _ => .ok 0
    blockEnergyLimit := 30
    backendGasLimit := 50 }

/-- An oracle that reverts at gas 7 and succeeds at the backend gas
limit 50. -/
def retryExec : Nat → CallResult := fun g =>
  if g = 7 then .ok .revert (some [1]) 5
  else if g = 50 then .ok .ok none 9
  else .errOther

/-- A request that explicitly sets `gas := 7`. -/
def retryRequest : EstimateRequest :=
  { fromAddr := none, toAddr := some 1, gas := some 7, gasPrice := none
    value := none, data := some [2] }

/-- An environment in which account 3 has empty code. -/
def transferEnv : EstimateEnv :=
  { codeAt := fun _ => .ok []
    balanceOf := fun _ => .ok 0
    blockEnergyLimit := 10
    backendGasLimit := 10 }

/-- A plain value transfer: no calldata, `to` set. -/
def transferRequest : EstimateRequest :=
  { fromAddr := none, toAddr := some 3, gas := none, gasPrice := none
    value := none, data := none }

/- ## Helper lemmas -/

/-- Mining `n` blocks advances the best block number by exactly `n`. -/
theorem mine_blocks_bestBlock (n : Nat) :
    ∀ s : NodeState, (mine_blocks s n).bestBlock = s.bestBlock + n := by
  induction n with
  | zero => intro s; rfl
  | succ k ih =>
    intro s
    rw [mine_blocks, ih (mine_one s)]
    simp [mine_one]
    omega

/-- Mining `n + 1` blocks consumes the pending timestamp override on the
first block and mines the remaining `n` without an override. -/
theorem mine_blocks_minedTimestamps (n : Nat) :
    ∀ s : NodeState, (mine_blocks s (n + 1)).minedTimestamps =
      s.minedTimestamps ++ s.nextTimestamp :: List.replicate n none := by
  induction n with
  | zero => intro s; simp [mine_blocks, mine_one]
  | succ k ih =>
    intro s
    rw [show k + 1 + 1 = (k + 1) + 1 from rfl, mine_blocks, ih (mine_one s)]
    simp [mine_one, List.replicate_succ]

/-- With a monotone oracle whose least succeeding gas `T` lies strictly
above the current lower bound, the binary-search loop converges to `T`. -/
theorem estimate_gas_loop_above (exec : Nat → CallResult) (T : Nat)
    (hsucc : succeedsFrom exec T) (hfail : failsBelow exec T) :
    ∀ fuel low high mid, low < T → T ≤ high →
      (high ≤ low + 1 ∨ (low < mid ∧ mid < high)) →
      high - low ≤ fuel →
      estimate_gas_loop exec low high mid fuel = some (.ok T) := by
  intro fuel
  induction fuel with
  | zero =>
    intro low high mid h1 h2 h3 h4
    exfalso
    omega
  | succ k ih =>
    intro low high mid hlow hhigh hmid hfuel
    by_cases hterm : high - low ≤ 1
    · have hT : high = T := by omega
      simp only [estimate_gas_loop]
      rw [if_pos hterm, hT]
    · have hm : low < mid ∧ mid < high := by
        rcases hmid with h | h
        · omega
        · exact h
      obtain ⟨hm1, hm2⟩ := hm
      by_cases hTm : T ≤ mid
      · obtain ⟨out, gasUsed, hex⟩ := hsucc mid hTm
        simp only [estimate_gas_loop]
        rw [if_neg hterm, hex]
        exact ih low mid ((mid + low) / 2) hlow hTm (by omega) (by omega)
      · have hmT : mid < T := by omega
        rcases hfail mid hmT with hex | ⟨out, gasUsed, hex | hex | hex⟩ <;>
        · simp only [estimate_gas_loop]
          rw [if_neg hterm, hex]
          exact ih mid high ((high + mid) / 2) hmT hhigh (by omega) (by omega)

/-- With a monotone oracle that already succeeds at the lower bound, every
probe succeeds and the binary-search loop converges to `low + 1`, one above
the (untested) lower bound. -/
theorem estimate_gas_loop_at_low (exec : Nat → CallResult) (T : Nat)
    (hsucc : succeedsFrom exec T) :
    ∀ fuel low high mid, T ≤ low → low < high →
      (high ≤ low + 1 ∨ (low < mid ∧ mid < high)) →
      high - low ≤ fuel →
      estimate_gas_loop exec low high mid fuel = some (.ok (low + 1)) := by
  intro fuel
  induction fuel with
  | zero =>
    intro low high mid h1 h2 h3 h4
    exfalso
    omega
  | succ k ih =>
    intro low high mid hT hlh hmid hfuel
    by_cases hterm : high - low ≤ 1
    · have hh : high = low + 1 := by omega
      simp only [estimate_gas_loop]
      rw [if_pos hterm, hh]
    · have hm : low < mid ∧ mid < high := by
        rcases hmid with h | h
        · omega
        · exact h
      obtain ⟨hm1, hm2⟩ := hm
      obtain ⟨out, gasUsed, hex⟩ := hsucc mid (by omega)
      simp only [estimate_gas_loop]
      rw [if_neg hterm, hex]
      exact ih low mid ((mid + low) / 2) hT (by omega) (by omega) (by omega)

/- ## Claim theorems -/

/-- C2 counterexample: in fork mode with `pin = 5`, the nonce handler
`get_transaction_count` delegates the query for block 5 to the remote fork
although `predates_fork 5 5` is false — the claim says nonce queries
delegate exactly when `n < pin`. -/
theorem transaction_count_delegates_at_pin :
    transaction_count_source (some 5) (.number 5) = .fork ∧
    predates_fork 5 5 = false := by decide

/-- C2 (amended): in fork mode the balance, code, storage, call (without
state overrides) and estimate-gas handlers delegate to the fork exactly when
`n < pin`, while the nonce, proof and uncle handlers delegate exactly when
`n ≤ pin`. -/
theorem fork_delegation_spec (pin n : Nat) :
    (balance_source (some pin) (.number n) = .fork ↔ n < pin) ∧
    (get_code_source (some pin) (.number n) = .fork ↔ n < pin) ∧
    (storage_at_source (some pin) (.number n) = .fork ↔ n < pin) ∧
    (call_handler (some pin) (.number n) false = .forkDelegate ↔ n < pin) ∧
    (estimate_gas_source (some pin) (.number n) = .fork ↔ n < pin) ∧
    (transaction_count_source (some pin) (.number n) = .fork ↔ n ≤ pin) ∧
    (get_proof_source (some pin) (.number n) = .fork ↔ n ≤ pin) ∧
    (uncle_source (some pin) n = .fork ↔ n ≤ pin) := by
  by_cases h1 : n < pin <;> by_cases h2 : n ≤ pin <;>
    simp_all [balance_source, get_code_source, storage_at_source,
      call_handler, estimate_gas_source, transaction_count_source,
      get_proof_source, uncle_source, predates_fork,
      predates_fork_inclusive]

/-- C3: every transaction admitted through `eth_sendTransaction`,
`eth_sendRawTransaction` or `eth_sendUnsignedTransaction` (all of which
pre-validate the nonce against the on-chain nonce) gets
`provides = [(sender, nonce)]`, at most one required marker, and
`requires = []` exactly when the nonce is the on-chain nonce, otherwise
`[(sender, nonce − 1)]`. -/
theorem pool_markers_spec (nonce on_chain_nonce : Nat) (fromAddr : Address)
    (hvalid : validate_pool_transaction_nonce nonce on_chain_nonce = true) :
    send_transaction_markers nonce on_chain_nonce fromAddr =
      ((if nonce = on_chain_nonce then [] else [(fromAddr, nonce - 1)]),
        [(fromAddr, nonce)]) ∧
    send_raw_transaction_markers nonce on_chain_nonce fromAddr =
      ((if nonce = on_chain_nonce then [] else [(fromAddr, nonce - 1)]),
        [(fromAddr, nonce)]) ∧
    send_unsigned_transaction_markers nonce on_chain_nonce fromAddr =
      ((if nonce = on_chain_nonce then [] else [(fromAddr, nonce - 1)]),
        [(fromAddr, nonce)]) ∧
    (required_marker nonce on_chain_nonce fromAddr).length ≤ 1 := by
  have hle : on_chain_nonce ≤ nonce := by
    simpa [validate_pool_transaction_nonce] using hvalid
  have hreq : required_marker nonce on_chain_nonce fromAddr =
      (if nonce = on_chain_nonce then [] else [(fromAddr, nonce - 1)]) := by
    by_cases heq : nonce = on_chain_nonce
    · simp [required_marker, heq]
    · have hlt : on_chain_nonce < nonce := lt_of_le_of_ne hle (Ne.symm heq)
      have hprev : on_chain_nonce ≤ nonce - 1 := by omega
      simp [required_marker, heq, hprev, to_marker]
  refine ⟨?_, ?_, ?_, ?_⟩
  · simp [send_transaction_markers, hreq, to_marker]
  · simp [send_raw_transaction_markers, hreq, to_marker]
  · simp [send_unsigned_transaction_markers, hreq, to_marker]
  · rw [hreq]; by_cases heq : nonce = on_chain_nonce <;> simp [heq]

/-- C3 witness: at sender 9, nonce 3, on-chain nonce 2, the markers are
`requires = [(9, 2)]`, `provides = [(9, 3)]`. -/
theorem pool_markers_spec_witness :
    send_transaction_markers 3 2 9 = ([(9, 2)], [(9, 3)]) ∧
    send_raw_transaction_markers 3 2 9 = ([(9, 2)], [(9, 3)]) ∧
    send_unsigned_transaction_markers 3 2 9 = ([(9, 2)], [(9, 3)]) ∧
    (required_marker 3 2 9).length ≤ 1 := by
  have h := pool_markers_spec 3 2 9 (by decide)
  simpa using h

/-- C6: `evm_mine` returns `"0x0"`; `do_evm_mine` mines exactly `blocks`
blocks for `Options{blocks: Some(blocks)}` and exactly one block otherwise,
and a timestamp carried by either options variant is installed as the next
block timestamp before mining (the first mined block consumes it). -/
theorem evm_mine_spec (s : NodeState) :
    (∀ opts, (evm_mine s opts).2 = "0x0") ∧
    (∀ t b, (do_evm_mine s (some (.options t (some b)))).2 = b ∧
      ((do_evm_mine s (some (.options t (some b)))).1).bestBlock =
        s.bestBlock + b) ∧
    ((do_evm_mine s none).2 = 1 ∧
      ((do_evm_mine s none).1).bestBlock = s.bestBlock + 1) ∧
    (∀ t, (do_evm_mine s (some (.timestamp t))).2 = 1 ∧
      ((do_evm_mine s (some (.timestamp t))).1).bestBlock = s.bestBlock + 1) ∧
    (∀ t, (do_evm_mine s (some (.options t none))).2 = 1 ∧
      ((do_evm_mine s (some (.options t none))).1).bestBlock =
        s.bestBlock + 1) ∧
    (∀ ts, ((do_evm_mine s (some (.timestamp (some ts)))).1).minedTimestamps =
      s.minedTimestamps ++ [some ts]) ∧
    (∀ ts b,
      ((do_evm_mine s (some (.options (some ts) (some (b + 1))))).1).minedTimestamps =
        s.minedTimestamps ++ some ts :: List.replicate b none) := by
  refine ⟨fun opts => rfl, ?_, ?_, ?_, ?_, ?_, ?_⟩
  · intro t b
    cases t <;>
      simp [do_evm_mine, evm_set_next_block_timestamp, mine_blocks_bestBlock]
  · simp [do_evm_mine, mine_blocks_bestBlock]
  · intro t
    cases t <;>
      simp [do_evm_mine, evm_set_next_block_timestamp, mine_blocks_bestBlock]
  · intro t
    cases t <;>
      simp [do_evm_mine, evm_set_next_block_timestamp, mine_blocks_bestBlock]
  · intro ts
    have h := mine_blocks_minedTimestamps 0
      (evm_set_next_block_timestamp s ts)
    simp [do_evm_mine] at h ⊢
    simpa [evm_set_next_block_timestamp] using h
  · intro ts b
    have h := mine_blocks_minedTimestamps b
      (evm_set_next_block_timestamp s ts)
    simp [do_evm_mine] at h ⊢
    simpa [evm_set_next_block_timestamp] using h

/-- C7: `eth_getWork`, `eth_submitWork`, `eth_submitHashrate`,
`eth_signTypedData` (v1) and `eth_signTypedData_v3` always return the
structured `RpcUnimplemented` error, while `eth_signTypedData_v4` can
succeed. -/
theorem unimplemented_handlers_spec :
    work = .error .RpcUnimplemented ∧
    (∀ nonce pow digest,
      submit_work nonce pow digest = .error .RpcUnimplemented) ∧
    (∀ rate id, submit_hashrate rate id = .error .RpcUnimplemented) ∧
    (∀ a d, sign_typed_data a d = .error .RpcUnimplemented) ∧
    (∀ a d, sign_typed_data_v3 a d = .error .RpcUnimplemented) ∧
    (∃ signers a d sig, sign_typed_data_v4 signers a d = .ok sig) := by
  refine ⟨rfl, fun _ _ _ => rfl, fun _ _ => rfl, fun _ _ => rfl,
    fun _ _ => rfl, ⟨[⟨[7], fun _ _ => "s"⟩], 7, 0, "0xs", rfl⟩⟩

/-- C8: in fork mode, `eth_call` on a block strictly before the fork pin
with a state-override set returns the `StateOverrideError` without
delegating to the fork and without executing locally. -/
theorem call_override_prefork_spec (pin n : Nat) (h : n < pin) :
    call_handler (some pin) (.number n) true = .stateOverrideError ∧
    call_handler (some pin) (.number n) true ≠ .forkDelegate ∧
    call_handler (some pin) (.number n) true ≠ .localCall := by
  simp [call_handler, predates_fork, h]

/-- C8 witness at `pin = 2`, `n = 1`. -/
theorem call_override_prefork_spec_witness :
    call_handler (some 2) (.number 1) true = .stateOverrideError ∧
    call_handler (some 2) (.number 1) true ≠ .forkDelegate ∧
    call_handler (some 2) (.number 1) true ≠ .localCall :=
  call_override_prefork_spec 2 1 (by decide)

/-- C9: `evm_setTime(t)` never fails, resets the clock to `t`, and returns
`saturating_sub(t, now)` interpreted as milliseconds and floored to seconds;
in particular any timestamp at or before the current time yields 0. -/
theorem evm_set_time_spec (now timestamp : Nat) :
    (evm_set_time now timestamp).1 = timestamp ∧
    (evm_set_time now timestamp).2 = .ok ((timestamp - now) / 1000) ∧
    (timestamp ≤ now → (evm_set_time now timestamp).2 = .ok 0) := by
  refine ⟨rfl, rfl, fun h => ?_⟩
  simp [evm_set_time, Nat.sub_eq_zero_of_le h]

/-- C9 witness at `now = 5000`, `t = 2000` (a past timestamp yields 0). -/
theorem evm_set_time_spec_witness :
    (evm_set_time 5000 2000).1 = 2000 ∧
    (evm_set_time 5000 2000).2 = .ok ((2000 - 5000) / 1000) ∧
    (evm_set_time 5000 2000).2 = .ok 0 := by
  have h := evm_set_time_spec 5000 2000
  exact ⟨h.1, h.2.1, h.2.2 (by decide)⟩

/-- C10: `evm_setIntervalMining(0)` sets the mining mode to `None`;
`evm_setIntervalMining(secs)` with `secs > 0` installs fixed-block-time
mining with interval `secs`; the call always succeeds. -/
theorem set_interval_mining_spec (secs : Nat) :
    ((anvil_set_interval_mining secs).1 = MiningMode.none ↔ secs = 0) ∧
    (∀ s, 0 < s →
      (anvil_set_interval_mining s).1 = MiningMode.fixedBlockTime s) ∧
    (anvil_set_interval_mining secs).2 = .ok () := by
  refine ⟨?_, ?_, ?_⟩
  · by_cases h : secs = 0 <;> simp [anvil_set_interval_mining, h]
  · intro s hs
    have : s ≠ 0 := by omega
    simp [anvil_set_interval_mining, this]
  · by_cases h : secs = 0 <;> simp [anvil_set_interval_mining, h]

/-- C10 witness at `secs = 0` and `s = 3`. -/
theorem set_interval_mining_spec_witness :
    ((anvil_set_interval_mining 0).1 = MiningMode.none ↔ (0 : Nat) = 0) ∧
    (anvil_set_interval_mining 3).1 = MiningMode.fixedBlockTime 3 ∧
    (anvil_set_interval_mining 0).2 = .ok () := by
  have h := set_interval_mining_spec 0
  exact ⟨h.1, h.2.1 3 (by decide), h.2.2⟩

/-- C5: an estimation request with empty (or absent) calldata whose `to`
account has empty code returns `MIN_TRANSACTION_GAS` immediately, for every
execution oracle and even with zero binary-search fuel. -/
theorem estimate_simple_transfer_spec (env : EstimateEnv)
    (request : EstimateRequest) (t : Address)
    (hdata : request.data = none ∨ request.data = some [])
    (hto : request.toAddr = some t)
    (hcode : env.codeAt t = .ok []) :
    ∀ exec fuel, do_estimate_gas_with_state env exec request fuel =
      some (.ok MIN_TRANSACTION_GAS) := by
  intro exec fuel
  have hst : is_simple_transfer env request = true := by
    rcases hdata with h | h <;> simp [is_simple_transfer, h, hto, hcode]
  simp [do_estimate_gas_with_state, hst]

/-- C5 witness: the concrete transfer request against an account with empty
code estimates to `MIN_TRANSACTION_GAS` with an oracle that always errors
and no fuel. -/
theorem estimate_simple_transfer_spec_witness :
    do_estimate_gas_with_state transferEnv (fun _ => .errOther)
      transferRequest 0 = some (.ok MIN_TRANSACTION_GAS) :=
  estimate_simple_transfer_spec transferEnv transferRequest 3
    (Or.inl rfl) rfl rfl (fun _ => .errOther) 0

/-- C4: when the initial execution at the computed cap reports `GasTooHigh`
or reverts and the request set `gas` or `gas_price` explicitly, the call is
re-executed at the backend's gas limit and the estimation returns
`BasicOutOfGas` if that re-execution succeeds or `Revert` with the output
if it reverts again; a revert without explicit `gas`/`gas_price` returns
`Revert` with the output directly. -/
theorem estimate_retry_spec (env : EstimateEnv) (exec : Nat → CallResult)
    (request : EstimateRequest) (ds : List Nat)
    (hfrom : request.fromAddr = none)
    (hdata : request.data = some ds) (hds : ds ≠ []) :
    ((request.gas.isSome || request.gasPrice.isSome) = true →
      (exec (request.gas.getD env.blockEnergyLimit) = .errGasTooHigh ∨
        ∃ out gasUsed, exec (request.gas.getD env.blockEnergyLimit) =
          .ok .revert out gasUsed) →
      ∀ fuel, do_estimate_gas_with_state env exec request fuel =
        some (.error (map_out_of_gas_err env exec
          (request.gas.getD env.blockEnergyLimit)))) ∧
    (∀ eout egasUsed, exec env.backendGasLimit = .ok .ok eout egasUsed →
      map_out_of_gas_err env exec (request.gas.getD env.blockEnergyLimit) =
        .basicOutOfGas (request.gas.getD env.blockEnergyLimit)) ∧
    (∀ eout egasUsed, exec env.backendGasLimit = .ok .revert eout egasUsed →
      map_out_of_gas_err env exec (request.gas.getD env.blockEnergyLimit) =
        .revert (some (convert_transact_out eout))) ∧
    (request.gas = none → request.gasPrice = none →
      ∀ out gasUsed fuel, exec env.blockEnergyLimit = .ok .revert out gasUsed →
        do_estimate_gas_with_state env exec request fuel =
          some (.error (.revert (some (convert_transact_out out))))) := by
  have hst : is_simple_transfer env request = false := by
    cases ds with
    | nil => exact absurd rfl hds
    | cons a l => simp [is_simple_transfer, hdata]
  have hcap : highest_gas_cap env request =
      .ok (request.gas.getD env.blockEnergyLimit) := by
    simp [highest_gas_cap, hfrom]
  have hgl : min (request.gas.getD (request.gas.getD env.blockEnergyLimit))
      (request.gas.getD env.blockEnergyLimit) =
      request.gas.getD env.blockEnergyLimit := by
    cases request.gas <;> simp
  refine ⟨?_, ?_, ?_, ?_⟩
  · intro hexpl hex fuel
    rcases hex with hex | ⟨out, gasUsed, hex⟩ <;>
      simp [do_estimate_gas_with_state, hst, hcap, hgl, hex, hexpl]
  · intro eout egasUsed hex
    simp [map_out_of_gas_err, hex]
  · intro eout egasUsed hex
    simp [map_out_of_gas_err, hex]
  · intro hg hp out gasUsed fuel hex
    simp [do_estimate_gas_with_state, hst, hcap, hgl, hg, hp, hex]

/-- C4 witness: the request with explicit `gas = 7` reverts at 7, is re-run
at the backend gas limit 50 where it succeeds, and the estimation reports
`BasicOutOfGas(7)`. -/
theorem estimate_retry_spec_witness :
    do_estimate_gas_with_state retryEnv retryExec retryRequest 5 =
      some (.error (.basicOutOfGas 7)) := by
  have h := estimate_retry_spec retryEnv retryExec retryRequest [2]
    rfl rfl (by decide)
  have hG : retryRequest.gas.getD retryEnv.blockEnergyLimit = 7 := rfl
  have ha := h.1 (by decide) (Or.inr ⟨some [1], 5, by decide⟩) 5
  have hb := h.2.1 none 9 (by decide)
  rw [hG] at ha hb
  rw [ha, hb]

/-- C1 counterexample: with an oracle that succeeds at every gas limit
(so the request "succeeds at some gas limit in range"), the binary search
returns 21001 although execution also succeeds at 21000, which lies in
`[base_by_kind, block_gas_limit] = [21000, 21004]` — so the returned value
is not the smallest `G` in that interval at which execution succeeds. -/
theorem estimate_gas_not_smallest :
    do_estimate_gas_with_state smallEnv alwaysOkExec plainCallRequest 10 =
      some (.ok 21001) ∧
    alwaysOkExec 21000 = .ok .ok none 1000000 ∧
    determine_base_gas_by_kind plainCallRequest = 21000 ∧
    smallEnv.blockEnergyLimit = 21004 ∧
    ¬ (21001 ≤ (21000 : Nat)) := by
  refine ⟨rfl, rfl, rfl, rfl, by decide⟩

/-- C1 (amended): for a monotone execution oracle with least succeeding gas
`T`, when the first execution at the cap succeeds, the estimation performs
the binary search over `[base_by_kind, highest]` (first midpoint
`min(gas_used * 3, (high + low) / 2)`, stop at `high - low ≤ 1`, return
`high`) and returns `max T (base_by_kind + 1)` — the smallest gas value `G`
in the half-open interval `(base_by_kind, block_gas_limit]` at which
execution succeeds.  (When execution already succeeds at `base_by_kind`
itself, the search still returns `base_by_kind + 1`.) -/
theorem estimate_gas_binary_search_spec (env : EstimateEnv)
    (exec : Nat → CallResult) (request : EstimateRequest) (ds : List Nat)
    (T : Nat) (out0 : Option (List Nat)) (gasUsed0 : Nat) (fuel : Nat)
    (hdata : request.data = some ds) (hds : ds ≠ [])
    (hgas : request.gas = none) (hprice : request.gasPrice = none)
    (hsucc : succeedsFrom exec T) (hfail : failsBelow exec T)
    (hexec0 : exec env.blockEnergyLimit = .ok .ok out0 gasUsed0)
    (hTlim : T ≤ env.blockEnergyLimit)
    (hbase : determine_base_gas_by_kind request < env.blockEnergyLimit)
    (hmid : determine_base_gas_by_kind request < gasUsed0 * 3)
    (hfuel : env.blockEnergyLimit ≤ fuel) :
    do_estimate_gas_with_state env exec request fuel =
      some (.ok (max T (determine_base_gas_by_kind request + 1))) ∧
    isSuccessAt exec (max T (determine_base_gas_by_kind request + 1)) ∧
    determine_base_gas_by_kind request <
      max T (determine_base_gas_by_kind request + 1) ∧
    max T (determine_base_gas_by_kind request + 1) ≤ env.blockEnergyLimit ∧
    (∀ g, determine_base_gas_by_kind request < g → isSuccessAt exec g →
      max T (determine_base_gas_by_kind request + 1) ≤ g) := by
  have hst : is_simple_transfer env request = false := by
    cases ds with
    | nil => exact absurd rfl hds
    | cons a l => simp [is_simple_transfer, hdata]
  have hcap : highest_gas_cap env request = .ok env.blockEnergyLimit := by
    cases hf : request.fromAddr <;>
      simp [highest_gas_cap, hf, hgas, hprice]
  have hmain : do_estimate_gas_with_state env exec request fuel =
      estimate_gas_loop exec (determine_base_gas_by_kind request)
        env.blockEnergyLimit
        (min (gasUsed0 * 3)
          ((env.blockEnergyLimit + determine_base_gas_by_kind request) / 2))
        fuel := by
    simp [do_estimate_gas_with_state, hst, hcap, hgas, hexec0]
  have hdisj : env.blockEnergyLimit ≤ determine_base_gas_by_kind request + 1 ∨
      (determine_base_gas_by_kind request <
          min (gasUsed0 * 3)
            ((env.blockEnergyLimit + determine_base_gas_by_kind request) / 2) ∧
        min (gasUsed0 * 3)
            ((env.blockEnergyLimit + determine_base_gas_by_kind request) / 2) <
          env.blockEnergyLimit) := by
    by_cases hsmall :
      env.blockEnergyLimit ≤ determine_base_gas_by_kind request + 1
    · exact Or.inl hsmall
    · refine Or.inr ⟨lt_min hmid (by omega), lt_of_le_of_lt
        (min_le_right _ _) (by omega)⟩
  have hfuel' : env.blockEnergyLimit - determine_base_gas_by_kind request ≤
      fuel := by omega
  by_cases hcase : determine_base_gas_by_kind request < T
  · have hmax : max T (determine_base_gas_by_kind request + 1) = T :=
      Nat.max_eq_left (by omega)
    rw [hmax] at *
    refine ⟨?_, ?_, by omega, by omega, ?_⟩
    · rw [hmain]
      exact estimate_gas_loop_above exec T hsucc hfail fuel
        (determine_base_gas_by_kind request) env.blockEnergyLimit
        (min (gasUsed0 * 3)
          ((env.blockEnergyLimit + determine_base_gas_by_kind request) / 2))
        hcase hTlim hdisj hfuel'
    · exact hsucc T le_rfl
    · intro g hg hsg
      by_contra hlt
      obtain ⟨o, u, hsg⟩ := hsg
      rcases hfail g (by omega) with hx | ⟨o2, u2, hx | hx | hx⟩ <;>
        simp [hsg] at hx
  · have hmax : max T (determine_base_gas_by_kind request + 1) =
        determine_base_gas_by_kind request + 1 :=
      Nat.max_eq_right (by omega)
    rw [hmax] at *
    refine ⟨?_, ?_, by omega, by omega, ?_⟩
    · rw [hmain]
      exact estimate_gas_loop_at_low exec T hsucc fuel
        (determine_base_gas_by_kind request) env.blockEnergyLimit
        (min (gasUsed0 * 3)
          ((env.blockEnergyLimit + determine_base_gas_by_kind request) / 2))
        (by omega) (by omega) hdisj hfuel'
    · exact hsucc (determine_base_gas_by_kind request + 1) (by omega)
    · intro g hg hsg
      omega

/-- C1 witness: the monotone oracle with threshold 21003 under the 21004
block gas limit estimates to exactly 21003. -/
theorem estimate_gas_binary_search_spec_witness :
    do_estimate_gas_with_state smallEnv thresholdExec plainCallRequest
      21004 = some (.ok 21003) := by
  have h := estimate_gas_binary_search_spec smallEnv thresholdExec
    plainCallRequest [1] 21003 none 21003 21004 rfl (by decide) rfl rfl
    (fun g hg => ⟨none, 21003, by simp [thresholdExec, hg]⟩)
    (fun g hg =>
      Or.inr ⟨none, 0, Or.inl (by simp [thresholdExec, Nat.not_le.mpr hg])⟩)
    (by decide) (by decide) (by decide) (by decide) (by decide)
  have h1 := h.1
  rw [show max 21003 (determine_base_gas_by_kind plainCallRequest + 1) =
    21003 from by decide] at h1
  exact h1

end Anvil
